import Mathlib

/-!
Verification of the lifecycle-instrumentation (AOP) subsystem of the
python_notes repository: a shallow embedding of src/design/aop.py
(classes Context, Advice, the module-level register decorator, the
method filters) and of the near-identical src/tools/life_cycle.py.

The static part models Python classes as name / base / own-dict records,
attribute lookup along the base chain, the member-discovery filters
(_SelectionFilter / _ExceptionFilter, aop.py lines 99-128), and the three
binding strategies (register, register_class, register_instance).
The dynamic part models Advice._life_cycle (aop.py lines 289-306) and the
contextmanager-based register (aop.py lines 44-96) as functions on an
explicit invocation context, hook state and outcome.
-/

namespace AOP

/-- Errors of the embedded Python fragment: a user exception carries its
type name and message; typeError, keyError and attributeError model the
built-in exceptions the framework itself can raise. -/
inductive PyError where
  | user (kind : String) (msg : String)
  | typeError (msg : String)
  | keyError (name : String)
  | attributeError (name : String)
deriving DecidableEq, Repr

/-- Members a class or instance dictionary can hold in this model: plain
functions (inspect.isfunction), bound methods (inspect.ismethod),
non-callable data attributes, and the wrapped functions produced by the
decorators (functools.wraps closures, which are plain functions). -/
inductive Member where
  | func (id : Nat)
  | boundMethod (id : Nat)
  | data (id : Nat)
  | wrapped (m : Member)
deriving DecidableEq, Repr

/-- Translation of the helper _callable (aop.py lines 313-315):
inspect.isfunction or inspect.ismethod; data attributes and classes are
filtered out. A wrapped member is a plain function closure. -/
def isCallableMember : Member → Bool
  | .func _ => true
  | .boundMethod _ => true
  | .wrapped _ => true
  | .data _ => false

/-- Association-list lookup, modelling Python dict access preserving
insertion order of keys. -/
def dictLookup : List (String × Member) → String → Option Member
  | [], _ => none
  | (k, v) :: rest, n => if k = n then some v else dictLookup rest n

/-- Insert-or-update on an association list, modelling Python dict item
assignment (an existing key keeps its position, a new key is appended). -/
def dictInsert : List (String × Member) → String → Member → List (String × Member)
  | [], n, v => [(n, v)]
  | (k, w) :: rest, n, v =>
      if k = n then (n, v) :: rest else (k, w) :: dictInsert rest n v

/-- Python classes of the model: a class with implicit base object, or a
single-inheritance subclass with an explicit base, each with its own
attribute dictionary. -/
inductive PyClass where
  | top (name : String) (ownDict : List (String × Member))
  | sub (name : String) (base : PyClass) (ownDict : List (String × Member))
deriving DecidableEq, Repr

def PyClass.name : PyClass → String
  | .top n _ => n
  | .sub n _ _ => n

def PyClass.ownDict : PyClass → List (String × Member)
  | .top _ d => d
  | .sub _ _ d => d

/-- Class attribute lookup: the class's own dict shadows the base chain
(single-inheritance method resolution order). -/
def PyClass.getattr : PyClass → String → Option Member
  | .top _ d, n => dictLookup d n
  | .sub _ b d, n =>
      match dictLookup d n with
      | some m => some m
      | none => b.getattr n

/-- All attribute names along the base chain, own names first. -/
def PyClass.allNames : PyClass → List String
  | .top _ d => d.map Prod.fst
  | .sub _ b d => d.map Prod.fst ++ b.allNames

/-- Lexicographic comparison of character lists, the order Python uses
when sorted compares identifier strings. -/
def lexLe : List Char → List Char → Bool
  | [], _ => true
  | _ :: _, [] => false
  | c :: cs, d :: ds => if c = d then lexLe cs ds else decide (c < d)

/-- String comparison by code points, as Python compares names. -/
def strLe (a b : String) : Bool := lexLe a.data b.data

/-- Check of the dunder naming convention: whether the name starts with
a double underscore, as method_name.startswith of the source does. -/
def isDunderName (n : String) : Bool := List.isPrefixOf "__".data n.data

/-- Translation of inspect.getmembers(cls): every resolvable attribute
name of the class paired with its resolved value, sorted by name. -/
def PyClass.getmembers (c : PyClass) : List (String × Member) :=
  ((c.allNames.dedup.insertionSort (fun a b => strLe a b = true))).filterMap
    (fun n => (c.getattr n).map (fun m => (n, m)))

/-- Translation of _SelectionFilter.methods (aop.py lines 110-117): walk
the explicit name list in order; getattr raises AttributeError on a
missing name; a resolvable name is kept only when _callable holds. -/
def selectionMethods (c : PyClass) : List String → Except PyError (List String)
  | [] => .ok []
  | n :: rest =>
      match c.getattr n with
      | none => .error (.attributeError n)
      | some m => do
          let tail ← selectionMethods c rest
          pure (if isCallableMember m then n :: tail else tail)

/-- Translation of _ExceptionFilter.methods (aop.py lines 120-128): walk
inspect.getmembers of the class and keep a name when it does not start
with a double underscore, is not in the deny list, and _callable holds. -/
def exceptionMethods (c : PyClass) (denyList : List String) : List String :=
  c.getmembers.filterMap (fun p =>
    if (!isDunderName p.1) && (!denyList.contains p.1) && isCallableMember p.2
    then some p.1 else none)

/-- Translation of Advice._filter (aop.py lines 308-310): the selection
filter is chosen when the selection argument is truthy (a non-empty
list), otherwise the exception filter with deny list, exception or []. -/
def filterMethods (c : PyClass) (selection exception : Option (List String)) :
    Except PyError (List String) :=
  match selection with
  | some (n :: rest) => selectionMethods c (n :: rest)
  | _ =>
      .ok (exceptionMethods c (match exception with | some l => l | none => []))

/-- Translation of the decorator inside the module-level register
(aop.py lines 72-94): it builds the wrapped closure with functools.wraps
and performs no callability check on the decorated object. -/
def registerDecorator (func : Member) : Except PyError Member :=
  .ok (.wrapped func)

/-- Translation of the decorator inside Advice.register (aop.py lines
186-195) and FunctionLifeCycle.register (life_cycle.py lines 60-68):
a non-callable decorated object raises TypeError, otherwise the wrapped
closure is returned. -/
def adviceRegisterDecorator (func : Member) : Except PyError Member :=
  if isCallableMember func then .ok (.wrapped func)
  else .error (.typeError "not callable")

/-- Loop body of Advice.register_class.decorated_class (aop.py lines
234-235): for each discovered name, read cls_dict of that name (KeyError
when absent from the copied own dict) and replace the entry by its
decorated form produced by Advice.register's decorator. -/
def wrapNames (d : List (String × Member)) :
    List String → Except PyError (List (String × Member))
  | [] => .ok d
  | n :: rest =>
      match dictLookup d n with
      | none => .error (.keyError n)
      | some m =>
          match adviceRegisterDecorator m with
          | .error e => .error e
          | .ok w => wrapNames (dictInsert d n w) rest

/-- Translation of Advice.register_class.decorated_class (aop.py lines
226-236) and FunctionLifeCycle.register_class (life_cycle.py lines
97-107): discover members with the filter, wrap them inside a copy of
the class's own dict, and build a new class with the same name whose
single base is the original class. -/
def registerClass (c : PyClass) (selection exception : Option (List String)) :
    Except PyError PyClass := do
  let names ← filterMethods c selection exception
  let d ← wrapNames c.ownDict names
  pure (.sub c.name c d)

/-- Python instances of the model: the runtime class together with the
instance dictionary mutated by setattr. -/
structure PyInstance where
  cls : PyClass
  instDict : List (String × Member)
deriving DecidableEq, Repr

/-- Attribute access on an instance binds a plain function found on the
class into a bound method (the descriptor protocol); other members are
returned as stored. -/
def bindMember : Member → Member
  | .func id => .boundMethod id
  | m => m

/-- Instance attribute lookup: the instance dict shadows the class
chain; members found on the class are bound. -/
def PyInstance.getattr (o : PyInstance) (n : String) : Option Member :=
  match dictLookup o.instDict n with
  | some m => some m
  | none => (o.cls.getattr n).map bindMember

/-- Translation of the wrapping loop of new_init inside
Advice.register_instance.decorated_class (aop.py lines 270-279) and
FunctionLifeCycle.register_instance (life_cycle.py lines 140-149),
starting from the instance as the original constructor left it: discover
members on the runtime class of the object, then for each discovered
name wrap getattr of the object at that name with Advice.register's
decorator and setattr the result on the instance. -/
def registerInstanceInit (selection exception : Option (List String))
    (obj : PyInstance) : Except PyError PyInstance := do
  let names ← filterMethods obj.cls selection exception
  names.foldlM (fun o n =>
    match o.getattr n with
    | none => .error (.attributeError n)
    | some m =>
        match adviceRegisterDecorator m with
        | .error e => .error e
        | .ok w => .ok { o with instDict := dictInsert o.instDict n w }) obj

/-- Translation of the Context dataclass (aop.py lines 14-33): the
target callable, its argument tuple (collapsed into one value of type A),
the success flag (default False), the result (default None), the captured
exception (default None) and the throw policy flag (default True). -/
structure Context (A R : Type) where
  func : A → Except PyError R
  args : A
  success : Bool := false
  result : Option R := none
  exception : Option PyError := none
  throw : Bool := true

/-- Hook slots of an Advice instance (aop.py lines 146-160): each hook
receives the invocation context and the hook object's private state, may
mutate both, and may itself raise. -/
structure Advice (A R S : Type) where
  before : Context A R → S → Except PyError (Context A R × S)
  returning : Context A R → S → Except PyError (Context A R × S)
  throwing : Context A R → S → Except PyError (Context A R × S)
  after : Context A R → S → Except PyError (Context A R × S)

/-- Observation labels recording which hook slot the engine invoked, in
order of invocation. -/
inductive Phase where
  | beforeP
  | returningP
  | throwingP
  | afterP
deriving DecidableEq, Repr

/-- Translation of Advice._life_cycle (aop.py lines 289-306), with the
phase trace recording each hook invocation. The before hook runs outside
the try statement; the target call is guarded; on success the context
gets success True and the result, returning runs, and the result local is
returned; on failure the context gets success False and the exception,
throwing runs, and the captured exception is re-raised when the context's
throw flag holds, otherwise the implicit None is returned. The after hook
runs in the finally region, so it runs on every path that entered the
try, and an error raised by any hook supersedes the pending outcome. -/
def lifeCycle (adv : Advice A R S) (ctx : Context A R) (s : S) :
    Except PyError (Option R) × Context A R × S × List Phase :=
  match adv.before ctx s with
  | .error e => (.error e, ctx, s, [.beforeP])
  | .ok (ctx, s) =>
      match ctx.func ctx.args with
      | .ok res =>
          let ctx := { ctx with success := true, result := some res }
          match adv.returning ctx s with
          | .error e =>
              match adv.after ctx s with
              | .error e2 => (.error e2, ctx, s, [.beforeP, .returningP, .afterP])
              | .ok (ctx2, s2) => (.error e, ctx2, s2, [.beforeP, .returningP, .afterP])
          | .ok (ctx, s) =>
              match adv.after ctx s with
              | .error e2 => (.error e2, ctx, s, [.beforeP, .returningP, .afterP])
              | .ok (ctx2, s2) =>
                  (.ok (some res), ctx2, s2, [.beforeP, .returningP, .afterP])
      | .error exc =>
          let ctx := { ctx with success := false, exception := some exc }
          match adv.throwing ctx s with
          | .error e =>
              match adv.after ctx s with
              | .error e2 => (.error e2, ctx, s, [.beforeP, .throwingP, .afterP])
              | .ok (ctx2, s2) => (.error e, ctx2, s2, [.beforeP, .throwingP, .afterP])
          | .ok (ctx, s) =>
              match adv.after ctx s with
              | .error e2 => (.error e2, ctx, s, [.beforeP, .throwingP, .afterP])
              | .ok (ctx2, s2) =>
                  ((if ctx.throw then .error exc else .ok none), ctx2, s2,
                    [.beforeP, .throwingP, .afterP])

/-- Translation of the wrapped_func built by Advice.register (aop.py
lines 190-193): a fresh context is created from the target, the
arguments and the registration-time throw flag, and the life cycle is
run on it. -/
def adviceCall (adv : Advice A R S) (throw : Bool) (f : A → Except PyError R)
    (a : A) (s : S) : Except PyError (Option R) × Context A R × S × List Phase :=
  lifeCycle adv { func := f, args := a, throw := throw } s

/-- Generator-style advice function of the module-level register (aop.py
lines 44-70), split at its single yield point: pre is the code before the
yield (run by the context manager's enter) and post is the code after the
yield (run by its exit). Both observe and may mutate the context and the
hook state, and may raise. -/
structure GenHook (A R S : Type) where
  pre : Context A R → S → Except PyError (Context A R × S)
  post : Context A R → S → Except PyError (Context A R × S)

/-- Translation of the wrapped_func built by the module-level register
(aop.py lines 74-92): a fresh context with the default throw flag True;
the context manager runs the pre part, the body calls the target and
stores success and result on success, or success False and the captured
exception on failure (the body itself never raises); the exit runs the
post part; finally the captured exception is re-raised when the call
failed and the context's throw flag holds (re-raising a None exception
is a TypeError), otherwise the context's result field is returned. -/
def registerCall (g : GenHook A R S) (f : A → Except PyError R) (a : A) (s : S) :
    Except PyError (Option R) × Context A R × S :=
  let ctx : Context A R := { func := f, args := a }
  match g.pre ctx s with
  | .error e => (.error e, ctx, s)
  | .ok (ctx, s) =>
      let ctx :=
        match ctx.func ctx.args with
        | .ok res => { ctx with success := true, result := some res }
        | .error exc => { ctx with success := false, exception := some exc }
      match g.post ctx s with
      | .error e => (.error e, ctx, s)
      | .ok (ctx, s) =>
          if !ctx.success && ctx.throw then
            match ctx.exception with
            | some e => (.error e, ctx, s)
            | none => (.error (.typeError "exceptions must derive from BaseException"),
                ctx, s)
          else (.ok ctx.result, ctx, s)

/-- Hooks that only observe the context and update their own state:
they never raise and never mutate the context. Claims about benign
hook objects quantify over this shape. -/
structure ObserverAdvice (A R S : Type) where
  before : Context A R → S → S
  returning : Context A R → S → S
  throwing : Context A R → S → S
  after : Context A R → S → S

/-- View of an observer advice as a full Advice hook object. -/
def ObserverAdvice.lift (oa : ObserverAdvice A R S) : Advice A R S where
  before := fun c s => .ok (c, oa.before c s)
  returning := fun c s => .ok (c, oa.returning c s)
  throwing := fun c s => .ok (c, oa.throwing c s)
  after := fun c s => .ok (c, oa.after c s)

/-- Modelled from the spec: the generator-style hook that corresponds to
a four-method hook object, as section 4.1 of the spec describes the
correspondence - the pre part performs the before logic, and the post
part, reading the now-populated context, performs the success or failure
logic and then the after logic. -/
def ObserverAdvice.toGenHook (oa : ObserverAdvice A R S) : GenHook A R S where
  pre := fun c s => .ok (c, oa.before c s)
  post := fun c s =>
    .ok (c, oa.after c (if c.success then oa.returning c s else oa.throwing c s))

/-- Evaluates to true exactly when a binding attempt ended in a
KeyError. -/
def isKeyError {α : Type} : Except PyError α → Bool
  | .error (.keyError _) => true
  | _ => false

/-- Decidable equality of outcomes, needed to evaluate the model on
concrete inputs. -/
instance {ε α : Type} [DecidableEq ε] [DecidableEq α] : DecidableEq (Except ε α) :=
  fun a b =>
    match a, b with
    | .ok x, .ok y =>
        if h : x = y then isTrue (by rw [h]) else isFalse (by simp [h])
    | .ok _, .error _ => isFalse (by simp)
    | .error _, .ok _ => isFalse (by simp)
    | .error e, .error e' =>
        if h : e = e' then isTrue (by rw [h]) else isFalse (by simp [h])

section Lemmas

theorem dictLookup_dictInsert_self (d : List (String × Member)) (n : String) (v : Member) :
    dictLookup (dictInsert d n v) n = some v := by
  induction d with
  | nil => simp [dictInsert, dictLookup]
  | cons p rest ih =>
      obtain ⟨k, w⟩ := p
      by_cases h : k = n
      · subst h
        simp [dictInsert, dictLookup]
      · simp [dictInsert, dictLookup, h, ih]

theorem dictLookup_dictInsert_ne (d : List (String × Member)) (n n' : String) (v : Member)
    (h : n ≠ n') : dictLookup (dictInsert d n v) n' = dictLookup d n' := by
  induction d with
  | nil => simp [dictInsert, dictLookup, h]
  | cons p rest ih =>
      obtain ⟨k, w⟩ := p
      by_cases hk : k = n
      · subst hk
        simp [dictInsert, dictLookup, h]
      · simp [dictInsert, dictLookup, hk, ih]

theorem dictLookup_mem_fst (d : List (String × Member)) (n : String) (m : Member)
    (h : dictLookup d n = some m) : n ∈ d.map Prod.fst := by
  induction d with
  | nil => simp [dictLookup] at h
  | cons p rest ih =>
      obtain ⟨k, w⟩ := p
      by_cases hk : k = n
      · subst hk
        simp
      · simp [dictLookup, hk] at h
        simpa using Or.inr (ih h)

theorem PyClass.getattr_own (c : PyClass) (n : String) (m : Member)
    (h : dictLookup c.ownDict n = some m) : c.getattr n = some m := by
  cases c with
  | top nm d => simpa [PyClass.getattr, PyClass.ownDict] using h
  | sub nm b d => simp [PyClass.getattr, PyClass.ownDict] at h ⊢; rw [h]

theorem PyClass.getattr_mem_allNames (c : PyClass) (n : String) (m : Member)
    (h : c.getattr n = some m) : n ∈ c.allNames := by
  induction c with
  | top nm d =>
      simpa [PyClass.allNames] using dictLookup_mem_fst d n m h
  | sub nm b d ih =>
      simp only [PyClass.getattr] at h
      rcases hd : dictLookup d n with _ | m'
      · rw [hd] at h
        exact List.mem_append_right _ (ih h)
      · exact List.mem_append_left _ (dictLookup_mem_fst d n m' hd)

theorem mem_getmembers_iff (c : PyClass) (n : String) (m : Member) :
    (n, m) ∈ c.getmembers ↔ c.getattr n = some m := by
  constructor
  · intro h
    simp only [PyClass.getmembers, List.mem_filterMap] at h
    obtain ⟨n', _, heq⟩ := h
    rcases hg : c.getattr n' with _ | m'
    · rw [hg] at heq
      simp at heq
    · rw [hg] at heq
      simp only [Option.map_some', Option.some.injEq, Prod.mk.injEq] at heq
      obtain ⟨h1, h2⟩ := heq
      subst h1; subst h2
      exact hg
  · intro h
    simp only [PyClass.getmembers, List.mem_filterMap]
    refine ⟨n, ?_, by simp [h]⟩
    rw [List.mem_insertionSort, List.mem_dedup]
    exact PyClass.getattr_mem_allNames c n m h

theorem mem_exceptionMethods_iff (c : PyClass) (deny : List String) (n : String) :
    n ∈ exceptionMethods c deny ↔
      (isDunderName n = false ∧ n ∉ deny ∧
        ∃ m, c.getattr n = some m ∧ isCallableMember m = true) := by
  constructor
  · intro h
    simp only [exceptionMethods, List.mem_filterMap] at h
    obtain ⟨⟨n', m⟩, hmem, hif⟩ := h
    by_cases hc :
        ((!isDunderName n') && (!deny.contains n') && isCallableMember m) = true
    · rw [if_pos hc] at hif
      simp only [Option.some.injEq] at hif
      subst hif
      simp only [Bool.and_eq_true, Bool.not_eq_true'] at hc
      exact ⟨hc.1.1, by simpa using hc.1.2,
        m, (mem_getmembers_iff c n' m).mp hmem, hc.2⟩
    · rw [if_neg hc] at hif
      simp at hif
  · rintro ⟨h1, h2, m, hg, h3⟩
    simp only [exceptionMethods, List.mem_filterMap]
    refine ⟨(n, m), (mem_getmembers_iff c n m).mpr hg, ?_⟩
    have : ((!isDunderName n) && (!deny.contains n) && isCallableMember m) = true := by
      simp [h1, h3]
      simpa using h2
    rw [if_pos this]

theorem selectionMethods_mem (c : PyClass) (l names : List String)
    (h : selectionMethods c l = .ok names) (n : String) (hn : n ∈ names) :
    ∃ m, c.getattr n = some m ∧ isCallableMember m = true := by
  induction l generalizing names with
  | nil =>
      simp only [selectionMethods, Except.ok.injEq] at h
      subst h
      simp at hn
  | cons n' rest ih =>
      simp only [selectionMethods] at h
      rcases hg : c.getattr n' with _ | m
      · rw [hg] at h
        simp at h
      · rw [hg] at h
        rcases ht : selectionMethods c rest with e | tail
        · rw [ht] at h
          replace h : (Except.error e : Except PyError (List String)) = .ok names := h
          simp at h
        · rw [ht] at h
          replace h :
              (Except.ok (if isCallableMember m = true then n' :: tail else tail) :
                Except PyError (List String)) = .ok names := h
          rw [Except.ok.injEq] at h
          subst h
          by_cases hc : isCallableMember m = true
          · rw [if_pos hc] at hn
            rcases List.mem_cons.mp hn with h1 | h1
            · subst h1
              exact ⟨m, hg, hc⟩
            · exact ih tail ht h1
          · rw [if_neg hc] at hn
            exact ih tail ht hn

theorem filterMethods_mem (c : PyClass) (sel exc : Option (List String))
    (names : List String) (h : filterMethods c sel exc = .ok names)
    (n : String) (hn : n ∈ names) :
    ∃ m, c.getattr n = some m ∧ isCallableMember m = true := by
  rcases sel with _ | l
  · simp only [filterMethods, Except.ok.injEq] at h
    subst h
    exact ((mem_exceptionMethods_iff c _ n).mp hn).2.2
  · rcases l with _ | ⟨n', rest⟩
    · simp only [filterMethods, Except.ok.injEq] at h
      subst h
      exact ((mem_exceptionMethods_iff c _ n).mp hn).2.2
    · exact selectionMethods_mem c (n' :: rest) names h n hn

theorem isCallableMember_bindMember (m : Member) :
    isCallableMember (bindMember m) = isCallableMember m := by
  cases m <;> rfl

theorem wrapNames_ok (names : List String) (d : List (String × Member))
    (hnd : names.Nodup)
    (h : ∀ n ∈ names, ∃ m, dictLookup d n = some m ∧ isCallableMember m = true) :
    ∃ d', wrapNames d names = .ok d' ∧
      (∀ n m, n ∈ names → dictLookup d n = some m →
        dictLookup d' n = some (.wrapped m)) ∧
      (∀ n, n ∉ names → dictLookup d' n = dictLookup d n) := by
  induction names generalizing d with
  | nil => exact ⟨d, rfl, by simp, fun _ _ => rfl⟩
  | cons n rest ih =>
      obtain ⟨m, hm, hc⟩ := h n (List.mem_cons_self n rest)
      have hnd' := hnd
      rw [List.nodup_cons] at hnd'
      obtain ⟨hnmem, hrestnd⟩ := hnd'
      set d1 := dictInsert d n (.wrapped m) with hd1
      have h1 : ∀ n' ∈ rest, ∃ m', dictLookup d1 n' = some m' ∧ isCallableMember m' = true := by
        intro n' hn'
        obtain ⟨m', hm', hc'⟩ := h n' (List.mem_cons_of_mem n hn')
        have hne : n ≠ n' := fun he => hnmem (he ▸ hn')
        exact ⟨m', by rw [hd1, dictLookup_dictInsert_ne d n n' _ hne]; exact hm', hc'⟩
      obtain ⟨d', hwrap, hsel, hkeep⟩ := ih d1 hrestnd h1
      refine ⟨d', ?_, ?_, ?_⟩
      · simp only [wrapNames, hm, adviceRegisterDecorator, hc, if_true]
        exact hwrap
      · intro n' m' hn' hl
        rcases List.mem_cons.mp hn' with he | he
        · subst he
          rw [hm] at hl
          rw [Option.some.injEq] at hl
          subst hl
          rw [hkeep n' hnmem, hd1]
          exact dictLookup_dictInsert_self d n' _
        · have hne : n ≠ n' := fun heq => hnmem (heq ▸ he)
          have : dictLookup d1 n' = some m' := by
            rw [hd1, dictLookup_dictInsert_ne d n n' _ hne]; exact hl
          exact hsel n' m' he this
      · intro n' hn'
        have hne : n ≠ n' := fun heq => hn' (heq ▸ List.mem_cons_self n rest)
        rw [hkeep n' (fun hr => hn' (List.mem_cons_of_mem n hr)), hd1,
          dictLookup_dictInsert_ne d n n' _ hne]

theorem wrapNames_error_of_missing (names : List String) (d : List (String × Member))
    (hcal : ∀ n ∈ names, ∀ m, dictLookup d n = some m → isCallableMember m = true)
    (hmiss : ∃ n ∈ names, dictLookup d n = none) :
    ∃ n', wrapNames d names = .error (.keyError n') := by
  induction names generalizing d with
  | nil => simp at hmiss
  | cons n rest ih =>
      rcases hl : dictLookup d n with _ | m
      · exact ⟨n, by simp only [wrapNames, hl]⟩
      · have hc : isCallableMember m = true := hcal n (List.mem_cons_self n rest) m hl
        set d1 := dictInsert d n (.wrapped m) with hd1
        have hcal1 : ∀ n' ∈ rest, ∀ m', dictLookup d1 n' = some m' →
            isCallableMember m' = true := by
          intro n' hn' m' hl'
          by_cases hne : n = n'
          · subst hne
            rw [hd1, dictLookup_dictInsert_self] at hl'
            rw [Option.some.injEq] at hl'
            subst hl'
            rfl
          · rw [hd1, dictLookup_dictInsert_ne d n n' _ hne] at hl'
            exact hcal n' (List.mem_cons_of_mem n hn') m' hl'
        have hmiss1 : ∃ n' ∈ rest, dictLookup d1 n' = none := by
          obtain ⟨n', hn', hnone⟩ := hmiss
          rcases List.mem_cons.mp hn' with he | he
          · subst he
            rw [hl] at hnone
            simp at hnone
          · have hne : n ≠ n' := by
              intro heq
              subst heq
              rw [hl] at hnone
              simp at hnone
            exact ⟨n', he, by rw [hd1, dictLookup_dictInsert_ne d n n' _ hne]; exact hnone⟩
        obtain ⟨n', herr⟩ := ih d1 hcal1 hmiss1
        refine ⟨n', ?_⟩
        simp only [wrapNames, hl, adviceRegisterDecorator, hc, if_true]
        exact herr

theorem instanceLoop_ok (C : PyClass) (names : List String)
    (d0 : List (String × Member)) (hnd : names.Nodup)
    (hres : ∀ n ∈ names, ∃ m, C.getattr n = some m ∧ isCallableMember m = true)
    (h0 : ∀ n ∈ names, dictLookup d0 n = none) :
    ∃ d', (names.foldlM (fun (o : PyInstance) (n : String) =>
        match PyInstance.getattr o n with
        | none => (Except.error (PyError.attributeError n) : Except PyError PyInstance)
        | some m =>
            match adviceRegisterDecorator m with
            | .error e => .error e
            | .ok w => .ok { o with instDict := dictInsert o.instDict n w })
        (⟨C, d0⟩ : PyInstance)) = .ok ⟨C, d'⟩ ∧
      (∀ n m, n ∈ names → C.getattr n = some m →
        dictLookup d' n = some (.wrapped (bindMember m))) ∧
      (∀ n, n ∉ names → dictLookup d' n = dictLookup d0 n) := by
  induction names generalizing d0 with
  | nil => exact ⟨d0, rfl, by simp, fun _ _ => rfl⟩
  | cons n rest ih =>
      obtain ⟨m, hm, hc⟩ := hres n (List.mem_cons_self n rest)
      have hnd' := hnd
      rw [List.nodup_cons] at hnd'
      obtain ⟨hnmem, hrestnd⟩ := hnd'
      have hget : PyInstance.getattr ⟨C, d0⟩ n = some (bindMember m) := by
        simp only [PyInstance.getattr, h0 n (List.mem_cons_self n rest), hm,
          Option.map_some']
      have hcb : isCallableMember (bindMember m) = true := by
        rw [isCallableMember_bindMember]; exact hc
      set d1 := dictInsert d0 n (.wrapped (bindMember m)) with hd1
      have h01 : ∀ n' ∈ rest, dictLookup d1 n' = none := by
        intro n' hn'
        have hne : n ≠ n' := fun he => hnmem (he ▸ hn')
        rw [hd1, dictLookup_dictInsert_ne d0 n n' _ hne]
        exact h0 n' (List.mem_cons_of_mem n hn')
      obtain ⟨d', hfold, hsel, hkeep⟩ :=
        ih d1 hrestnd (fun n' hn' => hres n' (List.mem_cons_of_mem n hn')) h01
      refine ⟨d', ?_, ?_, ?_⟩
      · rw [List.foldlM_cons]
        simp only [hget, adviceRegisterDecorator, hcb, if_true]
        exact hfold
      · intro n' m' hn' hg
        rcases List.mem_cons.mp hn' with he | he
        · subst he
          rw [hm] at hg
          rw [Option.some.injEq] at hg
          subst hg
          rw [hkeep n' hnmem, hd1]
          exact dictLookup_dictInsert_self d0 n' _
        · exact hsel n' m' he hg
      · intro n' hn'
        have hne : n ≠ n' := fun heq => hn' (heq ▸ List.mem_cons_self n rest)
        rw [hkeep n' (fun hr => hn' (List.mem_cons_of_mem n hr)), hd1,
          dictLookup_dictInsert_ne d0 n n' _ hne]

theorem except_ok_bind {α β : Type} (x : α) (f : α → Except PyError β) :
    (Except.ok x >>= f : Except PyError β) = f x := rfl

theorem except_error_bind {α β : Type} (e : PyError) (f : α → Except PyError β) :
    (Except.error e >>= f : Except PyError β) = .error e := rfl

end Lemmas

/-- C1: for every function f and argument tuple a such that f a does not
raise, the wrapped function produced by Advice.register returns exactly
f a, and the hooks observe a context with success true and result f a:
the returning and after hooks receive the context whose success flag is
true and whose result field holds the value f returned, and the call
returns that same value. -/
theorem advice_success_returns_result (oa : ObserverAdvice A R S)
    (f : A → Except PyError R) (a : A) (r : R) (t : Bool) (s : S)
    (hf : f a = .ok r) :
    adviceCall oa.lift t f a s =
      (.ok (some r),
       { func := f, args := a, success := true, result := some r, throw := t },
       oa.after
         { func := f, args := a, success := true, result := some r, throw := t }
         (oa.returning
           { func := f, args := a, success := true, result := some r, throw := t }
           (oa.before { func := f, args := a, throw := t } s)),
       [.beforeP, .returningP, .afterP]) := by
  simp [adviceCall, lifeCycle, ObserverAdvice.lift, hf]

/-- Witness for C1 at a concrete function, argument and trace hook. -/
theorem advice_success_returns_result_witness :
    (fun n => (Except.ok (n + 1) : Except PyError Nat)) 3 = .ok 4 ∧
    adviceCall
      (ObserverAdvice.lift
        { before := fun _ s => s ++ ["before"],
          returning := fun _ s => s ++ ["returning"],
          throwing := fun _ s => s ++ ["throwing"],
          after := fun _ s => s ++ ["after"] })
      true (fun n => (Except.ok (n + 1) : Except PyError Nat)) 3 [] =
      (.ok (some 4),
       { func := fun n => (Except.ok (n + 1) : Except PyError Nat), args := 3,
         success := true, result := some 4, throw := true },
       ["before", "returning", "after"],
       [.beforeP, .returningP, .afterP]) :=
  ⟨rfl, advice_success_returns_result _ _ 3 4 true [] rfl⟩

/-- C2: for every function f that raises exception e, with the throw
flag true (the default), the wrapped call raises exactly e to the
caller, and by then the throwing hook and the after hook have each run
exactly once, in that order: the phase trace is before, throwing, after,
and the final hook state is the after update applied to the throwing
update applied to the before update, both failure hooks observing the
context whose success flag is false and whose exception field holds e. -/
theorem advice_failure_propagates (oa : ObserverAdvice A R S)
    (f : A → Except PyError R) (a : A) (e : PyError) (s : S)
    (hf : f a = .error e) :
    adviceCall oa.lift true f a s =
      (.error e,
       { func := f, args := a, success := false, exception := some e, throw := true },
       oa.after
         { func := f, args := a, success := false, exception := some e, throw := true }
         (oa.throwing
           { func := f, args := a, success := false, exception := some e, throw := true }
           (oa.before { func := f, args := a, throw := true } s)),
       [.beforeP, .throwingP, .afterP]) := by
  simp [adviceCall, lifeCycle, ObserverAdvice.lift, hf]

/-- Witness for C2 at a concrete raising function and trace hook. -/
theorem advice_failure_propagates_witness :
    (fun _ => (Except.error (PyError.user "RuntimeError" "Expected Error") :
        Except PyError Nat)) 3 = .error (.user "RuntimeError" "Expected Error") ∧
    adviceCall
      (ObserverAdvice.lift
        { before := fun _ s => s ++ ["before"],
          returning := fun _ s => s ++ ["returning"],
          throwing := fun _ s => s ++ ["throwing"],
          after := fun _ s => s ++ ["after"] })
      true
      (fun _ => (Except.error (PyError.user "RuntimeError" "Expected Error") :
        Except PyError Nat)) 3 [] =
      (.error (.user "RuntimeError" "Expected Error"),
       { func := fun _ => (Except.error (PyError.user "RuntimeError" "Expected Error") :
           Except PyError Nat), args := 3,
         success := false, exception := some (.user "RuntimeError" "Expected Error"),
         throw := true },
       ["before", "throwing", "after"],
       [.beforeP, .throwingP, .afterP]) :=
  ⟨rfl, advice_failure_propagates _ _ 3 (.user "RuntimeError" "Expected Error") [] rfl⟩

/-- C4: with the throw flag false, a wrapped call whose target raises e
returns normally to the caller with the absent default result (the
implicit None of the life cycle), and the throwing hook still observes
the context whose success flag is false and whose exception field holds
the original captured exception e. -/
theorem advice_nothrow_suppresses (oa : ObserverAdvice A R S)
    (f : A → Except PyError R) (a : A) (e : PyError) (s : S)
    (hf : f a = .error e) :
    adviceCall oa.lift false f a s =
      (.ok none,
       { func := f, args := a, success := false, exception := some e, throw := false },
       oa.after
         { func := f, args := a, success := false, exception := some e, throw := false }
         (oa.throwing
           { func := f, args := a, success := false, exception := some e, throw := false }
           (oa.before { func := f, args := a, throw := false } s)),
       [.beforeP, .throwingP, .afterP]) := by
  simp [adviceCall, lifeCycle, ObserverAdvice.lift, hf]

/-- Witness for C4 at a concrete raising function and trace hook. -/
theorem advice_nothrow_suppresses_witness :
    (fun _ => (Except.error (PyError.user "RuntimeError" "Expected Error") :
        Except PyError Nat)) 3 = .error (.user "RuntimeError" "Expected Error") ∧
    adviceCall
      (ObserverAdvice.lift
        { before := fun _ s => s ++ ["before"],
          returning := fun _ s => s ++ ["returning"],
          throwing := fun _ s => s ++ ["throwing"],
          after := fun _ s => s ++ ["after"] })
      false
      (fun _ => (Except.error (PyError.user "RuntimeError" "Expected Error") :
        Except PyError Nat)) 3 [] =
      (.ok none,
       { func := fun _ => (Except.error (PyError.user "RuntimeError" "Expected Error") :
           Except PyError Nat), args := 3,
         success := false, exception := some (.user "RuntimeError" "Expected Error"),
         throw := false },
       ["before", "throwing", "after"],
       [.beforeP, .throwingP, .afterP]) :=
  ⟨rfl, advice_nothrow_suppresses _ _ 3 (.user "RuntimeError" "Expected Error") [] rfl⟩

/-- C5: wrapping with a generator-style hook function is equivalent in
observable ordering to wrapping with a four-method hook object. For
every observer hook object, every target, every argument and every
initial hook state, the call through the module-level register with the
corresponding generator hook, whose pre part is the before logic and
whose post part applies the success or failure logic on the populated
context followed by the after logic, produces the same outcome (returned
value or raised exception), the same final context and the same final
hook state as the call through Advice.register with the default throw
flag. -/
theorem generator_hook_equiv_method_hooks (oa : ObserverAdvice A R S)
    (f : A → Except PyError R) (a : A) (s : S) :
    (adviceCall oa.lift true f a s).1 = (registerCall oa.toGenHook f a s).1 ∧
    (adviceCall oa.lift true f a s).2.1 = (registerCall oa.toGenHook f a s).2.1 ∧
    (adviceCall oa.lift true f a s).2.2.1 = (registerCall oa.toGenHook f a s).2.2 := by
  rcases hf : f a with e | r <;>
    simp [adviceCall, registerCall, lifeCycle, ObserverAdvice.lift,
      ObserverAdvice.toGenHook, hf]

/-- C3: the after hook runs exactly once per call of a wrapped function,
regardless of success or failure, and it is invoked even when the
returning or throwing hook itself raises; in that case the hook-raised
error supersedes the underlying outcome while after still runs before
control returns. Stated for every hook object whose before hook
returned: the phase trace of the life cycle contains the after phase
exactly once on every path, and when the returning hook (respectively
the throwing hook) raises while the after hook completes, the call
raises the hook's error. -/
theorem after_runs_unconditionally (adv : Advice A R S) (ctx₀ : Context A R)
    (s₀ s₁ : S) (ctx₁ : Context A R)
    (hb : adv.before ctx₀ s₀ = .ok (ctx₁, s₁)) :
    ((lifeCycle adv ctx₀ s₀).2.2.2.count .afterP = 1) ∧
    (∀ (r : R) (e' : PyError) (ctx₂ : Context A R) (s₂ : S),
      ctx₁.func ctx₁.args = .ok r →
      adv.returning { ctx₁ with success := true, result := some r } s₁ = .error e' →
      adv.after { ctx₁ with success := true, result := some r } s₁ = .ok (ctx₂, s₂) →
      (lifeCycle adv ctx₀ s₀).1 = .error e') ∧
    (∀ (exc e' : PyError) (ctx₂ : Context A R) (s₂ : S),
      ctx₁.func ctx₁.args = .error exc →
      adv.throwing { ctx₁ with success := false, exception := some exc } s₁ = .error e' →
      adv.after { ctx₁ with success := false, exception := some exc } s₁ = .ok (ctx₂, s₂) →
      (lifeCycle adv ctx₀ s₀).1 = .error e') := by
  refine ⟨?_, ?_, ?_⟩
  · simp only [lifeCycle, hb]
    rcases hf : ctx₁.func ctx₁.args with e | r
    · simp only [hf]
      rcases ht : adv.throwing { ctx₁ with success := false, exception := some e } s₁
        with e' | ⟨c', s'⟩
      · simp only [ht]
        rcases ha : adv.after { ctx₁ with success := false, exception := some e } s₁
          with e2 | ⟨c2, s2⟩ <;> simp [ha]
      · simp only [ht]
        rcases ha : adv.after c' s' with e2 | ⟨c2, s2⟩ <;> simp [ha]
    · simp only [hf]
      rcases hr : adv.returning { ctx₁ with success := true, result := some r } s₁
        with e' | ⟨c', s'⟩
      · simp only [hr]
        rcases ha : adv.after { ctx₁ with success := true, result := some r } s₁
          with e2 | ⟨c2, s2⟩ <;> simp [ha]
      · simp only [hr]
        rcases ha : adv.after c' s' with e2 | ⟨c2, s2⟩ <;> simp [ha]
  · intro r e' ctx₂ s₂ hf hr ha
    simp [lifeCycle, hb, hf, hr, ha]
  · intro exc e' ctx₂ s₂ hf ht ha
    simp [lifeCycle, hb, hf, ht, ha]

/-- Witness for C3 at a concrete hook object whose returning hook
raises: the after phase still occurs exactly once and the hook error is
what the call raises. -/
theorem after_runs_unconditionally_witness :
    (Advice.before
        { before := fun c s => .ok (c, s ++ ["before"]),
          returning := fun _ _ => .error (.user "HookError" "boom"),
          throwing := fun c s => .ok (c, s ++ ["throwing"]),
          after := fun c s => .ok (c, s ++ ["after"]) }
        ({ func := fun n => (Except.ok (n + 1) : Except PyError Nat), args := 3 } :
          Context Nat Nat) ([] : List String)) =
      .ok ({ func := fun n => (Except.ok (n + 1) : Except PyError Nat), args := 3 },
        ["before"]) ∧
    ((lifeCycle
        { before := fun c s => .ok (c, s ++ ["before"]),
          returning := fun _ _ => .error (.user "HookError" "boom"),
          throwing := fun c s => .ok (c, s ++ ["throwing"]),
          after := fun c s => .ok (c, s ++ ["after"]) }
        ({ func := fun n => (Except.ok (n + 1) : Except PyError Nat), args := 3 } :
          Context Nat Nat) ([] : List String)).2.2.2.count .afterP = 1) ∧
    ((lifeCycle
        { before := fun c s => .ok (c, s ++ ["before"]),
          returning := fun _ _ => .error (.user "HookError" "boom"),
          throwing := fun c s => .ok (c, s ++ ["throwing"]),
          after := fun c s => .ok (c, s ++ ["after"]) }
        ({ func := fun n => (Except.ok (n + 1) : Except PyError Nat), args := 3 } :
          Context Nat Nat) ([] : List String)).1 = .error (.user "HookError" "boom")) :=
  ⟨rfl,
    (after_runs_unconditionally _ _ _ _ _ rfl).1,
    (after_runs_unconditionally _ _ _ _ _ rfl).2.1 4 (.user "HookError" "boom")
      { func := fun n => (Except.ok (n + 1) : Except PyError Nat), args := 3,
        success := true, result := some 4 }
      ["before", "after"] rfl rfl rfl⟩

/-- C8: member discovery produces an ordered sequence of member names as
follows. In selection mode it iterates the explicit name list in the
given order and includes a name exactly when it resolves to a
function-or-bound-method-typed member, skipping resolvable non-callable
attributes. In exception mode a member name is included exactly when it
does not start with a double underscore, is not in the deny list, and
resolves to a function-or-method-typed member. When both selection and
exception are unset the behaviour is exception mode with an empty deny
list. -/
theorem member_discovery_modes :
    (∀ (c : PyClass) (l : List String), (∀ n ∈ l, (c.getattr n).isSome) →
      selectionMethods c l = .ok (l.filter (fun n =>
        match c.getattr n with
        | some m => isCallableMember m
        | none => false))) ∧
    (∀ (c : PyClass) (deny : List String) (n : String),
      n ∈ exceptionMethods c deny ↔
        (isDunderName n = false ∧ n ∉ deny ∧
          ∃ m, c.getattr n = some m ∧ isCallableMember m = true)) ∧
    (∀ c : PyClass, filterMethods c none none = .ok (exceptionMethods c [])) := by
  refine ⟨?_, ?_, ?_⟩
  · intro c l
    induction l with
    | nil => intro _; rfl
    | cons n rest ih =>
        intro h
        have hn := h n (List.mem_cons_self n rest)
        rcases hg : c.getattr n with _ | m
        · rw [hg] at hn; simp at hn
        · have hrest := ih (fun n' hn' => h n' (List.mem_cons_of_mem n hn'))
          have hstep : selectionMethods c (n :: rest) =
              .ok (if isCallableMember m
                then n :: (rest.filter (fun n' =>
                  match c.getattr n' with
                  | some m' => isCallableMember m'
                  | none => false))
                else rest.filter (fun n' =>
                  match c.getattr n' with
                  | some m' => isCallableMember m'
                  | none => false)) := by
            simp only [selectionMethods, hg, hrest]
            rfl
          rw [hstep, List.filter_cons]
          simp only [hg]
  · exact fun c deny n => mem_exceptionMethods_iff c deny n
  · intro c; rfl

/-- Witness for C8: selection-mode discovery on a concrete class keeps
the function-typed name and skips the data attribute. -/
theorem member_discovery_modes_witness :
    selectionMethods (PyClass.top "A" [("run", Member.func 1), ("x", Member.data 7)])
      ["run", "x"] = .ok ["run"] :=
  member_discovery_modes.1 _ ["run", "x"] (by decide)

/-- C6: class binding returns a new class object with the same name, the
original class as its base and the same remaining members, in which each
discovered member is replaced by its wrapped form; the original class
value is untouched (it is the base of the result, unmodified). A
subclass of the new class resolves its own newly declared or overridden
members unwrapped, while a discovered member the subclass does not
override resolves to the wrapped form. Hypotheses: discovery succeeded
with duplicate-free names, each of which is present in the decorated
class's own dictionary. -/
theorem register_class_wraps_new_class (c : PyClass)
    (sel exc : Option (List String)) (names : List String)
    (hn : filterMethods c sel exc = .ok names) (hnd : names.Nodup)
    (hown : ∀ n ∈ names, (dictLookup c.ownDict n).isSome) :
    ∃ d, registerClass c sel exc = .ok (.sub c.name c d) ∧
      (∀ n m, n ∈ names → dictLookup c.ownDict n = some m →
        dictLookup d n = some (.wrapped m)) ∧
      (∀ n, n ∉ names → dictLookup d n = dictLookup c.ownDict n) ∧
      (∀ (sn : String) (sd : List (String × Member)) (n : String) (m : Member),
        dictLookup sd n = some m →
        (PyClass.sub sn (.sub c.name c d) sd).getattr n = some m) ∧
      (∀ (sn : String) (sd : List (String × Member)) (n : String) (m : Member),
        n ∈ names → dictLookup sd n = none → dictLookup c.ownDict n = some m →
        (PyClass.sub sn (.sub c.name c d) sd).getattr n = some (.wrapped m)) := by
  have hcall : ∀ n ∈ names, ∃ m, dictLookup c.ownDict n = some m ∧
      isCallableMember m = true := by
    intro n hmem
    obtain ⟨m', hg', hc'⟩ := filterMethods_mem c sel exc names hn n hmem
    rcases hl : dictLookup c.ownDict n with _ | m
    · exfalso
      have := hown n hmem
      rw [hl] at this
      simp at this
    · have hg := PyClass.getattr_own c n m hl
      rw [hg'] at hg
      rw [Option.some.injEq] at hg
      refine ⟨m, rfl, ?_⟩
      rw [← hg]
      exact hc'
  obtain ⟨d, hw, hsel, hkeep⟩ := wrapNames_ok names c.ownDict hnd hcall
  refine ⟨d, ?_, hsel, hkeep, ?_, ?_⟩
  · simp only [registerClass, hn, except_ok_bind, hw]
    rfl
  · intro sn sd n m h
    simp [PyClass.getattr, h]
  · intro sn sd n m hmem hnone hl
    obtain ⟨m', hl', hc'⟩ := hcall n hmem
    rw [hl] at hl'
    rw [Option.some.injEq] at hl'
    subst hl'
    simp [PyClass.getattr, hnone, hsel n m hmem hl]

/-- Witness for C6 on a concrete class with two methods and a data
attribute, and its subclass overriding one method and adding another. -/
theorem register_class_wraps_new_class_witness :
    registerClass (PyClass.top "A"
        [("run", Member.func 1), ("helper", Member.func 2), ("x", Member.data 7)])
      none none =
      .ok (.sub "A"
        (PyClass.top "A"
          [("run", Member.func 1), ("helper", Member.func 2), ("x", Member.data 7)])
        [("run", Member.wrapped (Member.func 1)),
         ("helper", Member.wrapped (Member.func 2)), ("x", Member.data 7)]) := by
  obtain ⟨d, hok, hsel, hkeep, h4, h5⟩ :=
    register_class_wraps_new_class
      (PyClass.top "A"
        [("run", Member.func 1), ("helper", Member.func 2), ("x", Member.data 7)])
      none none ["helper", "run"] (by decide) (by decide) (by decide)
  have hd : d = [("run", Member.wrapped (Member.func 1)),
      ("helper", Member.wrapped (Member.func 2)), ("x", Member.data 7)] := by
    have heval : registerClass (PyClass.top "A"
        [("run", Member.func 1), ("helper", Member.func 2), ("x", Member.data 7)])
        none none =
        .ok (.sub "A"
          (PyClass.top "A"
            [("run", Member.func 1), ("helper", Member.func 2), ("x", Member.data 7)])
          [("run", Member.wrapped (Member.func 1)),
           ("helper", Member.wrapped (Member.func 2)), ("x", Member.data 7)]) := by
      decide
    rw [heval] at hok
    rw [Except.ok.injEq] at hok
    exact ((PyClass.sub.injEq _ _ _ _ _ _).mp hok.symm).2.2
  rw [hd] at hok
  exact hok

/-- C7: instance binding, through the constructor wrapper it installs,
runs member discovery against the runtime class of the newly constructed
object after the original constructor has finished, and rebinds each
discovered member on that specific instance to its wrapped bound form;
names not discovered keep their original instance binding. Consequently,
under the default configuration, every public function-typed member the
runtime class declares or overrides, including members added by a
subclass, is discovered and therefore wrapped on every constructed
instance. -/
theorem register_instance_wraps_runtime_members (C : PyClass)
    (sel exc : Option (List String)) (names : List String)
    (d0 : List (String × Member))
    (hn : filterMethods C sel exc = .ok names) (hnd : names.Nodup)
    (h0 : ∀ n ∈ names, dictLookup d0 n = none) :
    ∃ d', registerInstanceInit sel exc ⟨C, d0⟩ = .ok ⟨C, d'⟩ ∧
      (∀ n m, n ∈ names → C.getattr n = some m →
        dictLookup d' n = some (.wrapped (bindMember m))) ∧
      (∀ n, n ∉ names → dictLookup d' n = dictLookup d0 n) ∧
      (sel = none → exc = none →
        ∀ n m, dictLookup C.ownDict n = some m → isCallableMember m = true →
          isDunderName n = false → n ∈ names) := by
  have hres := fun n hmem => filterMethods_mem C sel exc names hn n hmem
  obtain ⟨d', hfold, hsel, hkeep⟩ := instanceLoop_ok C names d0 hnd hres h0
  refine ⟨d', ?_, hsel, hkeep, ?_⟩
  · simp only [registerInstanceInit, hn, except_ok_bind]
    exact hfold
  · intro hs he n m hl hc hpub
    subst hs; subst he
    have : names = exceptionMethods C [] := by
      have : filterMethods C none none = .ok (exceptionMethods C []) := rfl
      rw [hn] at this
      rw [Except.ok.injEq] at this
      exact this
    rw [this]
    exact (mem_exceptionMethods_iff C [] n).mpr
      ⟨hpub, List.not_mem_nil n, m, PyClass.getattr_own C n m hl, hc⟩

/-- Witness for C7: constructing an instance of a subclass that adds a
method wraps the inherited methods and the added method on the
instance. -/
theorem register_instance_wraps_runtime_members_witness :
    registerInstanceInit none none
      ⟨PyClass.sub "B"
        (PyClass.top "A" [("run", Member.func 1), ("helper", Member.func 2)])
        [("extra", Member.func 3)], []⟩ =
      .ok ⟨PyClass.sub "B"
        (PyClass.top "A" [("run", Member.func 1), ("helper", Member.func 2)])
        [("extra", Member.func 3)],
        [("extra", Member.wrapped (Member.boundMethod 3)),
         ("helper", Member.wrapped (Member.boundMethod 2)),
         ("run", Member.wrapped (Member.boundMethod 1))]⟩ := by
  obtain ⟨d', hok, hsel, hkeep, hcov⟩ :=
    register_instance_wraps_runtime_members
      (PyClass.sub "B"
        (PyClass.top "A" [("run", Member.func 1), ("helper", Member.func 2)])
        [("extra", Member.func 3)])
      none none ["extra", "helper", "run"] [] (by decide) (by decide) (by decide)
  have hcheck := hcov rfl rfl "extra" (Member.func 3) (by decide) (by decide) (by decide)
  have hd : d' = [("extra", Member.wrapped (Member.boundMethod 3)),
      ("helper", Member.wrapped (Member.boundMethod 2)),
      ("run", Member.wrapped (Member.boundMethod 1))] := by
    have heval : registerInstanceInit none none
        ⟨PyClass.sub "B"
          (PyClass.top "A" [("run", Member.func 1), ("helper", Member.func 2)])
          [("extra", Member.func 3)], []⟩ =
        .ok ⟨PyClass.sub "B"
          (PyClass.top "A" [("run", Member.func 1), ("helper", Member.func 2)])
          [("extra", Member.func 3)],
          [("extra", Member.wrapped (Member.boundMethod 3)),
           ("helper", Member.wrapped (Member.boundMethod 2)),
           ("run", Member.wrapped (Member.boundMethod 1))]⟩ := by decide
    rw [heval] at hok
    rw [Except.ok.injEq] at hok
    exact congrArg PyInstance.instDict hok.symm
  rw [hd] at hok
  exact hok

/-- C9 counterexample: the module-level register decorator applied to a
non-callable object does not raise at decoration time; it returns the
wrapped closure, so the claim that every binding decorator raises
TypeError on a non-callable input before any call is made is false. -/
theorem register_decorator_no_check :
    registerDecorator (.data 0) = .ok (.wrapped (.data 0)) := rfl

/-- C9 amended: the method-based binding decorators, Advice.register and
FunctionLifeCycle.register, raise TypeError at decoration time on a
non-callable input, while the module-level register decorator performs
no callability check and decoration succeeds there. -/
theorem advice_register_rejects_noncallable (m : Member)
    (h : isCallableMember m = false) :
    adviceRegisterDecorator m = .error (.typeError "not callable") ∧
    registerDecorator m = .ok (.wrapped m) := by
  simp [adviceRegisterDecorator, registerDecorator, h]

/-- Witness for C9 at a concrete data attribute. -/
theorem advice_register_rejects_noncallable_witness :
    isCallableMember (.data 0) = false ∧
    (adviceRegisterDecorator (.data 0) = .error (.typeError "not callable") ∧
     registerDecorator (.data 0) = .ok (.wrapped (.data 0))) :=
  ⟨rfl, advice_register_rejects_noncallable (.data 0) rfl⟩

/-- C10: whenever member discovery for a class binding selects a name
that is not in the decorated class's own dictionary - in particular an
eligible public method inherited from a base class, which exception-mode
discovery resolves over the whole inheritance chain - register_class
raises a KeyError at class-creation time instead of producing a wrapped
class, because the wrapping loop indexes only the copied own
dictionary. -/
theorem register_class_inherited_method_keyerror (c : PyClass)
    (sel exc : Option (List String)) (names : List String) (n : String)
    (hn : filterMethods c sel exc = .ok names) (hmem : n ∈ names)
    (hmiss : dictLookup c.ownDict n = none) :
    isKeyError (registerClass c sel exc) = true := by
  have hcal : ∀ n' ∈ names, ∀ m, dictLookup c.ownDict n' = some m →
      isCallableMember m = true := by
    intro n' hn' m hl
    obtain ⟨m', hg', hc'⟩ := filterMethods_mem c sel exc names hn n' hn'
    have hg := PyClass.getattr_own c n' m hl
    rw [hg'] at hg
    rw [Option.some.injEq] at hg
    rw [← hg]
    exact hc'
  obtain ⟨n', herr⟩ :=
    wrapNames_error_of_missing names c.ownDict hcal ⟨n, hmem, hmiss⟩
  simp only [registerClass, hn, except_ok_bind, herr, except_error_bind]
  rfl

/-- Witness for C10: binding the subclass that inherits two public
methods from its base raises KeyError. -/
theorem register_class_inherited_method_keyerror_witness :
    isKeyError (registerClass
      (PyClass.sub "B"
        (PyClass.top "A" [("run", Member.func 1), ("helper", Member.func 2)])
        [("extra", Member.func 3)]) none none) = true :=
  register_class_inherited_method_keyerror
    (PyClass.sub "B"
      (PyClass.top "A" [("run", Member.func 1), ("helper", Member.func 2)])
      [("extra", Member.func 3)])
    none none ["extra", "helper", "run"] "helper" (by decide) (by decide) (by decide)

end AOP
